import Mathlib

/-!
Shallow embedding of the pathbot maze-exploration client
(src/pathbot_api.rs and src/lib.rs).

The embedding covers the data model (directions, rooms, exits, messages),
the wire-format transcoding (serde untagged decoding and the custom
Serialize/Deserialize impls), and the exploration state machine
(`State`, `Model::update`, `Model::fetch`).  Rust `HashMap`s are modelled
as association lists with overwrite-on-insert; Rust panics
(`panic!`/`expect`) are modelled as the `Except.error` case carrying the
panic message.  Rendering code (`view*`, `State::draw_map`, the canvas,
keyboard wiring) is presentation and is not part of the model.
-/

namespace Pathbot

/-- `MoveDirection` from src/pathbot_api.rs. -/
inductive MoveDirection
  | N
  | S
  | E
  | W
deriving DecidableEq, Repr

/-- `CompassDirection` from src/pathbot_api.rs. -/
inductive CompassDirection
  | N
  | S
  | E
  | W
  | NW
  | NE
  | SW
  | SE
deriving DecidableEq, Repr

/-- `RoomStatus` from src/pathbot_api.rs. -/
inductive RoomStatus
  | InProgress
  | Finished
deriving DecidableEq, Repr

/-- `MazeExitHint` from src/pathbot_api.rs.  `distance` is a Rust `u32`,
modelled as a `Nat`; the wire decoder enforces the `u32` range. -/
structure MazeExitHint where
  direction : CompassDirection
  distance : Nat
deriving DecidableEq, Repr

/-- `Room` from src/pathbot_api.rs. -/
structure Room where
  status : RoomStatus
  message : String
  exits : List MoveDirection
  description : String
  maze_exit_hint : MazeExitHint
  location_path : String
deriving DecidableEq, Repr

/-- `Message` from src/pathbot_api.rs. -/
structure Message where
  message : String
deriving DecidableEq, Repr

/-- `Exit` from src/pathbot_api.rs. -/
structure Exit where
  status : RoomStatus
  description : String
deriving DecidableEq, Repr

/-- `PathbotApiMessage` from src/pathbot_api.rs.  The declaration order
Room, Message, Exit is the order `#[serde(untagged)]` tries the variants. -/
inductive PathbotApiMessage
  | Room (room : Room)
  | Message (message : Message)
  | Exit (e : Exit)
deriving DecidableEq, Repr

/-- `MoveDirection::short_name` from src/pathbot_api.rs. -/
def MoveDirection.short_name : MoveDirection → String
  | .N => "N"
  | .S => "S"
  | .E => "E"
  | .W => "W"

/-- `CompassDirection::short_name` from src/pathbot_api.rs. -/
def CompassDirection.short_name : CompassDirection → String
  | .N => "N"
  | .S => "S"
  | .E => "E"
  | .W => "W"
  | .NW => "NW"
  | .NE => "NE"
  | .SW => "SW"
  | .SE => "SE"

/-!  ## Wire format

A small JSON value model; serde derived struct deserializers look fields
up by name and ignore unknown fields (serde's default). -/

/-- JSON values, as far as the pathbot wire format needs them. -/
inductive JValue
  | str (s : String)
  | num (n : Nat)
  | arr (elems : List JValue)
  | obj (fields : List (String × JValue))
deriving Repr

/-- Field lookup in a JSON object (first occurrence). -/
def getField : List (String × JValue) → String → Option JValue
  | [], _ => none
  | (k, v) :: rest, key => if k = key then some v else getField rest key

/-- A required struct field: serde errors with `missing field` when absent. -/
def reqField (fields : List (String × JValue)) (name : String) :
    Except String JValue :=
  match getField fields name with
  | some v => .ok v
  | none => .error ("missing field " ++ name)

/-- serde `String::deserialize`. -/
def decodeStringJ : JValue → Except String String
  | .str s => .ok s
  | _ => .error "invalid type: expected a string"

/-- serde `u32` deserialization: a JSON number within `u32` range. -/
def decodeU32 : JValue → Except String Nat
  | .num n => if n < 4294967296 then .ok n else .error "invalid value: integer out of u32 range"
  | _ => .error "invalid type: expected u32"

/-- `RoomStatus::deserialize` from src/pathbot_api.rs: deserialize a
string, then match on the literal. -/
def decodeRoomStatusStr (s : String) : Except String RoomStatus :=
  if s = "in-progress" then .ok .InProgress
  else if s = "finished" then .ok .Finished
  else .error ("Unknown status: " ++ s)

/-- `RoomStatus::serialize` from src/pathbot_api.rs. -/
def encodeRoomStatus : RoomStatus → String
  | .InProgress => "in-progress"
  | .Finished => "finished"

/-- `MoveDirection::deserialize` from src/pathbot_api.rs. -/
def decodeMoveDirectionStr (s : String) : Except String MoveDirection :=
  if s = "N" then .ok .N
  else if s = "S" then .ok .S
  else if s = "E" then .ok .E
  else if s = "W" then .ok .W
  else .error ("Unknown move direction: " ++ s)

/-- `CompassDirection::deserialize` from src/pathbot_api.rs. -/
def decodeCompassDirectionStr (s : String) : Except String CompassDirection :=
  if s = "N" then .ok .N
  else if s = "S" then .ok .S
  else if s = "E" then .ok .E
  else if s = "W" then .ok .W
  else if s = "NW" then .ok .NW
  else if s = "NE" then .ok .NE
  else if s = "SW" then .ok .SW
  else if s = "SE" then .ok .SE
  else .error ("Unknown compass direction: " ++ s)

/-- Decoding a JSON value as a `RoomStatus`. -/
def decodeRoomStatusJ (v : JValue) : Except String RoomStatus :=
  decodeStringJ v >>= decodeRoomStatusStr

/-- Decoding a JSON value as a `MoveDirection`. -/
def decodeMoveDirectionJ (v : JValue) : Except String MoveDirection :=
  decodeStringJ v >>= decodeMoveDirectionStr

/-- Decoding a JSON value as a `CompassDirection`. -/
def decodeCompassDirectionJ (v : JValue) : Except String CompassDirection :=
  decodeStringJ v >>= decodeCompassDirectionStr

/-- Decoding a JSON array of move directions (`Vec<MoveDirection>`). -/
def decodeMoveDirectionList (v : JValue) : Except String (List MoveDirection) :=
  match v with
  | .arr elems => elems.mapM decodeMoveDirectionJ
  | _ => .error "invalid type: expected a sequence"

/-- `RawRoom::deserialize` composed with `From<RawRoom> for Room`
(src/pathbot_api.rs): all seven wire fields are required, the two
flattened hint fields are packed back into `maze_exit_hint`. -/
def decodeRoomJ (v : JValue) : Except String Room :=
  match v with
  | .obj fields => do
    let status ← reqField fields "status" >>= decodeRoomStatusJ
    let message ← reqField fields "message" >>= decodeStringJ
    let exits ← reqField fields "exits" >>= decodeMoveDirectionList
    let description ← reqField fields "description" >>= decodeStringJ
    let hintDir ← reqField fields "mazeExitDirection" >>= decodeCompassDirectionJ
    let hintDist ← reqField fields "mazeExitDistance" >>= decodeU32
    let locationPath ← reqField fields "locationPath" >>= decodeStringJ
    .ok { status := status, message := message, exits := exits,
          description := description,
          maze_exit_hint := { direction := hintDir, distance := hintDist },
          location_path := locationPath }
  | _ => .error "invalid type: expected a map"

/-- Derived `Message::deserialize`: one required field `message`. -/
def decodeMessageJ (v : JValue) : Except String Message :=
  match v with
  | .obj fields => do
    let message ← reqField fields "message" >>= decodeStringJ
    .ok { message := message }
  | _ => .error "invalid type: expected a map"

/-- Derived `Exit::deserialize`: required fields `status`, `description`. -/
def decodeExitJ (v : JValue) : Except String Exit :=
  match v with
  | .obj fields => do
    let status ← reqField fields "status" >>= decodeRoomStatusJ
    let description ← reqField fields "description" >>= decodeStringJ
    .ok { status := status, description := description }
  | _ => .error "invalid type: expected a map"

/-- `#[serde(untagged)]` deserialization of `PathbotApiMessage`
(src/pathbot_api.rs): the variants are tried in declaration order
Room, Message, Exit; the first that succeeds wins. -/
def decodeApiMessage (v : JValue) : Except String PathbotApiMessage :=
  match decodeRoomJ v with
  | .ok room => .ok (.Room room)
  | .error _ =>
    match decodeMessageJ v with
    | .ok message => .ok (.Message message)
    | .error _ =>
      match decodeExitJ v with
      | .ok e => .ok (.Exit e)
      | .error _ =>
        .error "data did not match any variant of untagged enum PathbotApiMessage"

/-- `Room::serialize` via `From<Room> for RawRoom` (src/pathbot_api.rs):
the hint is flattened to top-level `mazeExitDirection` / `mazeExitDistance`. -/
def encodeRoomJ (room : Room) : JValue :=
  .obj [("status", .str (encodeRoomStatus room.status)),
        ("message", .str room.message),
        ("exits", .arr (room.exits.map (fun d => .str d.short_name))),
        ("description", .str room.description),
        ("mazeExitDirection", .str room.maze_exit_hint.direction.short_name),
        ("mazeExitDistance", .num room.maze_exit_hint.distance),
        ("locationPath", .str room.location_path)]

/-!  ## Exploration state machine (src/lib.rs) -/

/-- `Coordinate` from src/lib.rs (`i32` components modelled as `Int`;
the additions in this program stay far from the `i32` bounds). -/
structure Coordinate where
  x : Int
  y : Int
deriving DecidableEq, Repr

/-- `impl Add for Coordinate` from src/lib.rs: componentwise addition. -/
def Coordinate.add (a b : Coordinate) : Coordinate :=
  { x := a.x + b.x, y := a.y + b.y }

instance : Add Coordinate := ⟨Coordinate.add⟩

/-- `MoveDirection::delta` from src/lib.rs. -/
def MoveDirection.delta : MoveDirection → Coordinate
  | .N => { x := 0, y := -1 }
  | .S => { x := 0, y := 1 }
  | .W => { x := -1, y := 0 }
  | .E => { x := 1, y := 0 }

/-- `Status` from src/lib.rs. -/
inductive Status
  | Loading
  | InRoom (id : String)
  | Finished (e : Exit)
deriving DecidableEq, Repr

/-- Debug rendering of a `Status`, standing in for Rust's `{:?}` in the
`insert_room` panic message. -/
def Status.debugStr : Status → String
  | .Loading => "Loading"
  | .InRoom id => "InRoom(" ++ id ++ ")"
  | .Finished e => "Finished(Exit, " ++ e.description ++ ")"

/-- Association-list lookup, modelling `HashMap::get`. -/
def lookupA {α β : Type} [DecidableEq α] : List (α × β) → α → Option β
  | [], _ => none
  | (k, v) :: rest, key => if k = key then some v else lookupA rest key

/-- Association-list insert-or-overwrite, modelling `HashMap::insert`. -/
def upsertA {α β : Type} [DecidableEq α] : List (α × β) → α → β → List (α × β)
  | [], k, v => [(k, v)]
  | (k', v') :: rest, k, v =>
    if k' = k then (k, v) :: rest else (k', v') :: upsertA rest k v

/-- `State` from src/lib.rs: the exploration state. -/
structure State where
  rooms : List (String × (Room × Coordinate))
  room_coords : List (String × Coordinate)
  coord_to_id : List (Coordinate × String)
  status : Status
deriving DecidableEq, Repr

/-- `State::default` from src/lib.rs. -/
def State.initial : State :=
  { rooms := [], room_coords := [], coord_to_id := [], status := .Loading }

/-- `State::restart` from src/lib.rs: resets `status` to `Loading` and
clears `rooms` — the `room_coords` and `coord_to_id` caches are left as
they are. -/
def State.restart (s : State) : State :=
  { s with status := .Loading, rooms := [] }

/-- `State::exited` from src/lib.rs. -/
def State.exited (s : State) : Bool :=
  match s.status with
  | .Finished _ => true
  | _ => false

/-- `State::current_exit_hint` from src/lib.rs. -/
def State.current_exit_hint (s : State) : Option MazeExitHint :=
  match s.status with
  | .InRoom id => (lookupA s.rooms id).map (fun t => t.1.maze_exit_hint)
  | _ => none

/-- `State::current_exits` from src/lib.rs. -/
def State.current_exits (s : State) : Option (List MoveDirection) :=
  match s.status with
  | .InRoom id => (lookupA s.rooms id).map (fun t => t.1.exits)
  | _ => none

/-- `State::current_coordinates` from src/lib.rs. -/
def State.current_coordinates (s : State) : Option Coordinate :=
  match s.status with
  | .InRoom id => (lookupA s.rooms id).map (fun t => t.2)
  | _ => none

/-- `State::current_room_id` from src/lib.rs. -/
def State.current_room_id (s : State) : Option String :=
  match s.status with
  | .InRoom id => some id
  | _ => none

/-- `State::can_move_direction` from src/lib.rs. -/
def State.can_move_direction (s : State) (direction : MoveDirection) : Bool :=
  match s.current_exits with
  | some current_exits => current_exits.contains direction
  | none => false

/-- `State::insert_room` from src/lib.rs.  The two panics (`panic!` when
`last_move` is present but `status` is not `InRoom`, and the `expect`
when the current room is missing from `rooms`) are the `Except.error`
cases.  Note that `status` is NOT modified here. -/
def State.insert_room (s : State) (room : Room)
    (last_move : Option MoveDirection) : Except String State :=
  let location_path := room.location_path
  match last_move with
  | some prev_move =>
    match s.status with
    | .InRoom prev_id =>
      match lookupA s.rooms prev_id with
      | some (_, prev_position) =>
        let position := prev_position + prev_move.delta
        .ok { s with
              rooms := upsertA s.rooms location_path (room, position),
              room_coords := upsertA s.room_coords location_path position,
              coord_to_id := upsertA s.coord_to_id position location_path }
      | none => .error "Logic error: room must exist."
    | _ => .error ("Logic error: cannot insert room when status == "
                   ++ s.status.debugStr ++ ".")
  | none =>
    let position : Coordinate := { x := 0, y := 0 }
    .ok { s with
          rooms := upsertA s.rooms location_path (room, position),
          room_coords := upsertA s.room_coords location_path position,
          coord_to_id := upsertA s.coord_to_id position location_path }

/-- `State::reached_exit` from src/lib.rs: requires a last move (the
`expect` is the error case), fabricates the synthetic terminal room
`exit_room_yay` whose single exit is the inverse of the last move,
inserts it via `insert_room`, sets `status := Finished(exit)` and
returns the synthetic room id. -/
def State.reached_exit (s : State) (e : Exit)
    (last_move : Option MoveDirection) : Except String (State × String) :=
  match last_move with
  | none => .error "Logic error: we must have moved here."
  | some mv =>
    let exit_move : MoveDirection :=
      match mv with
      | .N => .S
      | .S => .N
      | .E => .W
      | .W => .E
    let exit_room_id := "exit_room_yay"
    let room : Room :=
      { status := .Finished,
        message := "Thank you for playing :)",
        exits := [exit_move],
        description := e.description,
        maze_exit_hint := { direction := .N, distance := 0 },
        location_path := exit_room_id }
    match s.insert_room room (some mv) with
    | .error err => .error err
    | .ok s1 => .ok ({ s1 with status := .Finished e }, exit_room_id)

/-!  ## Model and message dispatch (src/lib.rs) -/

/-- `NotificationLevel` from src/lib.rs. -/
inductive NotificationLevel
  | Info
  | Success
  | Warning
  | Danger
deriving DecidableEq, Repr

/-- `Notification` from src/lib.rs. -/
structure Notification where
  message : String
  level : NotificationLevel
deriving DecidableEq, Repr

/-- `Msg` from src/lib.rs (without `HandleKeyDown`, which is keyboard
wiring that only re-emits `FetchNextRoom`/`ClearNotifications`). -/
inductive Msg
  | Init
  | FetchNextRoom (direction : MoveDirection)
  | ReceivedRoom (room : Room) (last_move : Option MoveDirection)
  | MoveToRoom (room_id : String)
  | ReceivedMessage (message : Message)
  | ReceivedExit (e : Exit) (last_move : Option MoveDirection)
  | FetchRoomFailed (err : String)
  | NewNotification (n : Notification)
  | NotificationClosed (id : Nat)
  | ClearNotifications
  | Noop
deriving DecidableEq, Repr

/-- `FetchRoomRequest` from src/lib.rs. -/
inductive FetchRoomRequest
  | StartRoom
  | NextRoom (location_path : String) (direction : MoveDirection)
deriving DecidableEq, Repr

/-- The stateful fields of `Model` from src/lib.rs that the state machine
reads or writes (services, tasks and the component link are runtime
plumbing). -/
structure Model where
  state : State
  fetching : Bool
  fetching_move : Option MoveDirection
  notifications : List (Nat × Notification)
  next_notification_id : Nat
deriving DecidableEq, Repr

/-- `Model::create` from src/lib.rs. -/
def Model.initial : Model :=
  { state := State.initial, fetching := false, fetching_move := none,
    notifications := [], next_notification_id := 0 }

/-- `Model::loading` from src/lib.rs. -/
def Model.loading (m : Model) : Bool :=
  m.fetching ||
    (match m.state.status with
     | .Loading => true
     | _ => false)

/-- The observable outcome of one `update`/`fetch` call: the new model,
the messages queued with `send_self` (in order), and the network request
issued through the fetch service, if any. -/
structure Effects where
  model : Model
  sent : List Msg
  request : Option FetchRoomRequest
deriving DecidableEq, Repr

/-- `Model::fetch` from src/lib.rs.  If a request is in flight the call
is dropped (a `warn!` log only).  Otherwise the in-flight flag and the
fetched direction are set; for a move, the destination coordinate is
computed (the `expect` on `current_coordinates` is the error case) and
if `coord_to_id` already knows it, the flag is cleared and a
`MoveToRoom` is self-sent instead of any network call; otherwise the
request goes out. -/
def Model.fetch (m : Model) (request : FetchRoomRequest) :
    Except String Effects :=
  if m.fetching then .ok { model := m, sent := [], request := none }
  else
    let fetching_move :=
      match request with
      | .StartRoom => none
      | .NextRoom _ dir => some dir
    let m1 := { m with fetching := true, fetching_move := fetching_move }
    match request with
    | .NextRoom _ move_direction =>
      match m1.state.current_coordinates with
      | none => .error "Logic error: must have a room"
      | some cur =>
        let next_coords := cur + move_direction.delta
        match lookupA m1.state.coord_to_id next_coords with
        | some room_id =>
          .ok { model := { m1 with fetching := false },
                sent := [.MoveToRoom room_id], request := none }
        | none => .ok { model := m1, sent := [], request := some request }
    | .StartRoom => .ok { model := m1, sent := [], request := some request }

/-- `Model::update` from src/lib.rs.  `send_self` calls become the
`sent` list; the keyboard task of `Init` and `State::draw_map` (canvas
drawing) are presentation-side and omitted; the `error!` branches of
`FetchNextRoom` are logs only. -/
def Model.update (m : Model) (msg : Msg) : Except String Effects :=
  match msg with
  | .Init =>
    let m1 := { m with state := m.state.restart }
    m1.fetch .StartRoom
  | .FetchNextRoom direction =>
    if m.loading || !(m.state.can_move_direction direction) then
      .ok { model := m, sent := [], request := none }
    else
      match m.state.status with
      | .Loading => .ok { model := m, sent := [], request := none }
      | .InRoom current_room_id =>
        m.fetch (.NextRoom current_room_id direction)
      | .Finished _ => .ok { model := m, sent := [], request := none }
  | .ReceivedRoom room last_move =>
    let m1 := { m with fetching := false, fetching_move := none }
    let room_id := room.location_path
    match m1.state.insert_room room last_move with
    | .error e => .error e
    | .ok st =>
      .ok { model := { m1 with state := st },
            sent := [.MoveToRoom room_id], request := none }
  | .MoveToRoom room_id =>
    .ok { model := { m with state := { m.state with status := .InRoom room_id } },
          sent := [], request := none }
  | .ReceivedMessage message =>
    let m1 := { m with fetching := false, fetching_move := none }
    .ok { model := m1,
          sent := [.NewNotification
                    { message := message.message, level := .Warning }],
          request := none }
  | .ReceivedExit e last_move =>
    let m1 := { m with fetching := false, fetching_move := none }
    match m1.state.reached_exit e last_move with
    | .error err => .error err
    | .ok (st, room_id) =>
      .ok { model := { m1 with state := st },
            sent := [.MoveToRoom room_id,
                     .NewNotification
                       { message := "Congratulations! You exited the maze!",
                         level := .Success }],
            request := none }
  | .FetchRoomFailed err =>
    let m1 := { m with fetching := false, fetching_move := none }
    .ok { model := m1,
          sent := [.NewNotification
                    { message := "An error occurred while communicating with the API: "
                                 ++ err,
                      level := .Warning }],
          request := none }
  | .NewNotification n =>
    let id := m.next_notification_id
    .ok { model := { m with
                     notifications := upsertA m.notifications id n,
                     next_notification_id := id + 1 },
          sent := [], request := none }
  | .NotificationClosed id =>
    .ok { model := { m with
                     notifications := m.notifications.filter
                       (fun p => decide (p.1 ≠ id)) },
          sent := [], request := none }
  | .ClearNotifications =>
    .ok { model := { m with notifications := [] }, sent := [], request := none }
  | .Noop => .ok { model := m, sent := [], request := none }

/-- FIFO processing of a message queue, recording after each processed
message the message and the status it left behind, and collecting the
network requests issued.  Fuel bounds the internal `send_self` chains
(which are short: at most two queued messages per handler, none of which
queues further work except `MoveToRoom`/`NewNotification`, which queue
nothing). -/
def runQueue : Nat → Model → List Msg →
    Except String (Model × List (Msg × Status) × List FetchRoomRequest)
  | 0, _, _ => .error "fuel exhausted"
  | _ + 1, m, [] => .ok (m, [], [])
  | fuel + 1, m, msg :: rest =>
    match m.update msg with
    | .error e => .error e
    | .ok eff =>
      match runQueue fuel eff.model (rest ++ eff.sent) with
      | .error e => .error e
      | .ok (m1, trace, reqs) =>
        .ok (m1, (msg, eff.model.state.status) :: trace,
             match eff.request with
             | some r => r :: reqs
             | none => reqs)

/-- Dispatch one external event (a UI intent or a completed-response
message) and drain the self-sent messages it triggers, as yew's
scheduler does before the next external event arrives. -/
def stepEvent (m : Model) (e : Msg) :
    Except String (Model × List (Msg × Status) × List FetchRoomRequest) :=
  runQueue 8 m [e]

/-- Run a sequence of external events from a model, draining the
self-sent queue between events; the trace lists every processed message
(external and self-sent) with the status after it. -/
def runEvents : Model → List Msg →
    Except String (Model × List (Msg × Status) × List FetchRoomRequest)
  | m, [] => .ok (m, [], [])
  | m, e :: rest =>
    match stepEvent m e with
    | .error err => .error err
    | .ok (m1, tr1, rq1) =>
      match runEvents m1 rest with
      | .error err => .error err
      | .ok (m2, tr2, rq2) => .ok (m2, tr1 ++ tr2, rq1 ++ rq2)

/-- The response callback built in `Model::fetch` (src/lib.rs): it
receives the response parts, discards the metadata (`_meta`, which
carries the HTTP status) and dispatches on the decoded body alone. -/
def fetchCallback (last_move : Option MoveDirection) (metaStatus : Nat)
    (data : Except String PathbotApiMessage) : Msg :=
  let _ := metaStatus
  match data with
  | .ok (.Room room) => .ReceivedRoom room last_move
  | .ok (.Message message) => .ReceivedMessage message
  | .ok (.Exit e) => .ReceivedExit e last_move
  | .error e => .FetchRoomFailed e

/-- A completed HTTP response (status code and JSON body) as the
callback sees it: the body is decoded by the untagged transcoder, then
dispatched. -/
def dispatchResponse (last_move : Option MoveDirection) (metaStatus : Nat)
    (body : JValue) : Msg :=
  fetchCallback last_move metaStatus (decodeApiMessage body)

/-!  ## Specification predicates and concrete scenarios -/

/-- The inverse of a move direction (the synthetic terminal room's single
exit in `reached_exit` is the inverse of the last move). -/
def MoveDirection.inverse : MoveDirection → MoveDirection
  | .N => .S
  | .S => .N
  | .E => .W
  | .W => .E

/-- The field of a JSON object at top level, if any. -/
def topField (v : JValue) (name : String) : Option JValue :=
  match v with
  | .obj fields => getField fields name
  | _ => none

/-- The trace of processed messages (with the status after each) of an
event sequence run from the freshly created model. -/
def traceOf (events : List Msg) : List (Msg × Status) :=
  match runEvents Model.initial events with
  | .ok (_, trace, _) => trace
  | .error _ => []

/-- Whether the trace entry at index `i` left the status `Finished`. -/
def finishedAt (trace : List (Msg × Status)) (i : Nat) : Bool :=
  match trace.get? i with
  | some (_, .Finished _) => true
  | _ => false

/-- Whether the trace entry at index `i` left the status `InRoom`. -/
def inRoomAt (trace : List (Msg × Status)) (i : Nat) : Bool :=
  match trace.get? i with
  | some (_, .InRoom _) => true
  | _ => false

/-- Whether the message processed at index `i` was the restart intent
(`Msg::Init` restarts the exploration). -/
def restartAt (trace : List (Msg × Status)) (i : Nat) : Bool :=
  match trace.get? i with
  | some (.Init, _) => true
  | _ => false

/-- Every `InRoom` status after a `Finished` status has a restart intent
in between. -/
def noInRoomAfterFinishedWithoutRestart (trace : List (Msg × Status)) : Prop :=
  ∀ i j, i < j → finishedAt trace i = true → inRoomAt trace j = true →
    ∃ k, i < k ∧ k ≤ j ∧ restartAt trace k = true

/-- Claim C1 as stated: in every run from the fresh model, `Finished` is
never followed by `InRoom` without an intervening restart. -/
def c1ClaimStatement : Prop :=
  ∀ events : List Msg, noInRoomAfterFinishedWithoutRestart (traceOf events)

/-- Claim C2 as stated: every completed response with a non-2xx status is
dispatched as `FetchRoomFailed`, whatever the body decodes to. -/
def c2ClaimStatement : Prop :=
  ∀ (lm : Option MoveDirection) (metaStatus : Nat) (body : JValue),
    ¬ (200 ≤ metaStatus ∧ metaStatus < 300) →
    ∃ e, dispatchResponse lm metaStatus body = .FetchRoomFailed e

/-- Claim C5 as stated: while a request is in flight, a further move or
start intent leaves the model exactly as it was, sends nothing and
issues no request. -/
def c5ClaimStatement : Prop :=
  ∀ m : Model, m.fetching = true →
    (∀ d, m.update (.FetchNextRoom d) =
       .ok { model := m, sent := [], request := none }) ∧
    m.update .Init = .ok { model := m, sent := [], request := none }

/-- The invariant of claim C4: whenever the status is `InRoom id`, `id`
is a key of `rooms`. -/
def statusRoomInvariant (s : State) : Prop :=
  ∀ id, s.status = .InRoom id → (lookupA s.rooms id).isSome = true

/-- A sample maze-exit hint. -/
def sampleHint : MazeExitHint := { direction := .NE, distance := 5 }

/-- A sample in-progress room at the given path with the given exits. -/
def sampleRoom (path : String) (exits : List MoveDirection) : Room :=
  { status := .InProgress, message := "", exits := exits,
    description := "a room", maze_exit_hint := sampleHint,
    location_path := path }

/-- A sample terminal `Exit` payload. -/
def sampleExit : Exit := { status := .Finished, description := "done" }

/-- C1 scenario: start, receive the first room, move North, receive the
exit payload. -/
def c1Events : List Msg :=
  [.Init,
   .ReceivedRoom (sampleRoom "/A" [.N]) none,
   .FetchNextRoom .N,
   .ReceivedExit sampleExit (some .N)]

/-- C3 scenario: a wire payload carrying both `status`+`description` and
a `message` field. -/
def c3Payload : JValue :=
  .obj [("status", .str "finished"), ("description", .str "d"),
        ("message", .str "m")]

/-- C4 scenario: explore two rooms, restart, explore one room, then move
onto the coordinate the stale cache still maps to the pre-restart room. -/
def c4Events : List Msg :=
  [.Init,
   .ReceivedRoom (sampleRoom "/A" [.E]) none,
   .FetchNextRoom .E,
   .ReceivedRoom (sampleRoom "/B" [.W]) (some .E),
   .Init,
   .ReceivedRoom (sampleRoom "/C" [.E]) none,
   .FetchNextRoom .E]

/-- A model with a request in flight while in room `/A`. -/
def c5Model : Model :=
  { state := { rooms := [("/A", (sampleRoom "/A" [.N], { x := 0, y := 0 }))],
               room_coords := [("/A", { x := 0, y := 0 })],
               coord_to_id := [({ x := 0, y := 0 }, "/A")],
               status := .InRoom "/A" },
    fetching := true, fetching_move := none,
    notifications := [], next_notification_id := 0 }

/-- C1 witness scenario: a model in room `/A` awaiting the response of a
move North. -/
def c1Model : Model :=
  { state := { rooms := [("/A", (sampleRoom "/A" [.N], { x := 0, y := 0 }))],
               room_coords := [("/A", { x := 0, y := 0 })],
               coord_to_id := [({ x := 0, y := 0 }, "/A")],
               status := .InRoom "/A" },
    fetching := true, fetching_move := some .N,
    notifications := [], next_notification_id := 0 }

/-- C2 scenario: a response body that decodes as a `Message`. -/
def c2Payload : JValue := .obj [("message", .str "oops")]

/-- C7 witness scenario: a model in room `/C` at the origin whose
coordinate cache already maps the cell East of it to room `/B`. -/
def c7Model : Model :=
  { state := { rooms := [("/C", (sampleRoom "/C" [.E], { x := 0, y := 0 }))],
               room_coords := [("/C", { x := 0, y := 0 }), ("/B", { x := 1, y := 0 })],
               coord_to_id := [({ x := 0, y := 0 }, "/C"), ({ x := 1, y := 0 }, "/B")],
               status := .InRoom "/C" },
    fetching := false, fetching_move := none,
    notifications := [], next_notification_id := 0 }

/-- C6 scenario: the state in room `/A` at the origin. -/
def c6State : State :=
  { rooms := [("/A", (sampleRoom "/A" [.E], { x := 0, y := 0 }))],
    room_coords := [("/A", { x := 0, y := 0 })],
    coord_to_id := [({ x := 0, y := 0 }, "/A")],
    status := .InRoom "/A" }

/-- C6 scenario: the room received after moving East from `/A`. -/
def c6Room : Room := sampleRoom "/B" [.W]

/-!  ## Helper lemmas -/

/-- Looking up the key just upserted yields the upserted value. -/
theorem lookupA_upsertA_self {α β : Type} [DecidableEq α]
    (l : List (α × β)) (k : α) (v : β) : lookupA (upsertA l k v) k = some v := by
  induction l with
  | nil => simp [upsertA, lookupA]
  | cons p rest ih =>
    by_cases h : p.1 = k
    · simp [upsertA, lookupA, h]
    · cases p with
      | mk k1 v1 =>
        simp at h
        simp [upsertA, lookupA, h, ih]

/-- Decoding the short name of a move direction recovers it. -/
theorem decodeMoveDirectionStr_short (d : MoveDirection) :
    decodeMoveDirectionStr d.short_name = .ok d := by
  cases d <;> rfl

/-- The `mapM` loop of the exit-list decoder inverts the exit-list
encoder, for any accumulator. -/
theorem mapM_loop_decode (l : List MoveDirection) (acc : List MoveDirection) :
    List.mapM.loop decodeMoveDirectionJ (l.map (fun d => JValue.str d.short_name)) acc
      = Except.ok (acc.reverse ++ l) := by
  induction l generalizing acc with
  | nil => simp [List.mapM.loop, pure, Except.pure]
  | cons d rest ih =>
    simp [List.mapM.loop, decodeMoveDirectionJ, decodeStringJ,
      decodeMoveDirectionStr_short d, Bind.bind, Except.bind, ih]

/-!  ## Claim C1 -/

/-- C1 counterexample: the claim that from a fresh model `Finished` is
never followed by `InRoom` without an intervening restart is false.  In
the run Init, ReceivedRoom, FetchNextRoom North, ReceivedExit, the
`ReceivedExit` handler leaves `Finished` (trace index 4) and the
`MoveToRoom` it self-sent immediately re-enters `InRoom` of the
synthetic exit room (trace index 5) with no restart in between. -/
theorem c1_counterexample : ¬ c1ClaimStatement := by
  intro h
  obtain ⟨k, hik, hkj, hinit⟩ := h c1Events 4 5 (by omega) (by decide) (by decide)
  have hk : k = 5 := by omega
  rw [hk] at hinit
  exact absurd hinit (by decide)

/-- C1 amended: once `ReceivedExit` sets the status to `Finished`, the
handler has already queued `MoveToRoom("exit_room_yay")`, so after the
event is fully dispatched the status is `InRoom("exit_room_yay")` with
no restart having occurred, no network request was issued, and a further
move along the synthetic room's single exit (the inverse of the last
move) is permitted.  `Finished` is therefore not terminal in the code:
it lasts only until the queued `MoveToRoom` is processed. -/
theorem c1_amended (m : Model) (e : Exit) (d : MoveDirection) (id : String)
    (room : Room) (c : Coordinate)
    (hst : m.state.status = .InRoom id)
    (hroom : lookupA m.state.rooms id = some (room, c)) :
    ∃ m1 trace reqs,
      stepEvent m (.ReceivedExit e (some d)) = .ok (m1, trace, reqs) ∧
      m1.state.status = .InRoom "exit_room_yay" ∧
      reqs = [] ∧
      m1.state.can_move_direction d.inverse = true := by
  simp only [stepEvent, runQueue, Model.update, State.reached_exit,
    State.insert_room, hst, hroom]
  refine ⟨_, _, _, rfl, rfl, rfl, ?_⟩
  simp only [State.can_move_direction, State.current_exits, lookupA_upsertA_self,
    Option.map_some]
  cases d <;> rfl

/-- C1 amended, witness: the amended theorem instantiated at the model
sitting in room `/A` receiving the exit payload after a move North. -/
theorem c1_amended_witness :
    c1Model.state.status = Status.InRoom "/A" ∧
    lookupA c1Model.state.rooms "/A"
      = some (sampleRoom "/A" [.N], { x := 0, y := 0 }) ∧
    ∃ m1 trace reqs,
      stepEvent c1Model (.ReceivedExit sampleExit (some .N)) = .ok (m1, trace, reqs) ∧
      m1.state.status = .InRoom "exit_room_yay" ∧
      reqs = [] ∧
      m1.state.can_move_direction MoveDirection.N.inverse = true :=
  ⟨rfl, rfl, c1_amended c1Model sampleExit .N "/A" (sampleRoom "/A" [.N])
      { x := 0, y := 0 } rfl rfl⟩

/-!  ## Claim C2 -/

/-- C2 counterexample: the claim that every completed response with a
non-2xx HTTP status dispatches `RequestFailed` is false: an HTTP 500
response whose body decodes as a `Message` dispatches
`ReceivedMessage`, because the callback discards the response metadata. -/
theorem c2_counterexample : ¬ c2ClaimStatement := by
  intro h
  obtain ⟨e, he⟩ := h none 500 c2Payload (by omega)
  rw [show dispatchResponse none 500 c2Payload
        = .ReceivedMessage { message := "oops" } from rfl] at he
  exact Msg.noConfusion he

/-- C2 amended: the dispatched message is independent of the HTTP status
code (the callback discards the metadata); `FetchRoomFailed` is
dispatched exactly when the body fails to decode as one of the three
payload shapes, and never when it decodes successfully. -/
theorem c2_amended :
    (∀ lm s1 s2 body, dispatchResponse lm s1 body = dispatchResponse lm s2 body) ∧
    (∀ lm s body e, decodeApiMessage body = .error e →
       dispatchResponse lm s body = .FetchRoomFailed e) ∧
    (∀ lm s body v, decodeApiMessage body = .ok v →
       ∀ e, dispatchResponse lm s body ≠ .FetchRoomFailed e) := by
  refine ⟨fun lm s1 s2 body => rfl, fun lm s body e he => ?_, fun lm s body v hv e => ?_⟩
  · simp [dispatchResponse, fetchCallback, he]
  · simp only [dispatchResponse, fetchCallback, hv]
    cases v <;> simp

/-- C2 amended, witness: a body matching no shape is dispatched as
`FetchRoomFailed`, and a 404 response with a `Message` body is not. -/
theorem c2_witness :
    decodeApiMessage (JValue.num 3)
      = .error "data did not match any variant of untagged enum PathbotApiMessage" ∧
    dispatchResponse none 500 (JValue.num 3)
      = .FetchRoomFailed "data did not match any variant of untagged enum PathbotApiMessage" ∧
    decodeApiMessage c2Payload = .ok (.Message { message := "oops" }) ∧
    dispatchResponse none 404 c2Payload ≠ .FetchRoomFailed "not found" :=
  ⟨rfl, c2_amended.2.1 none 500 (JValue.num 3) _ rfl,
   rfl, c2_amended.2.2 none 404 c2Payload _ rfl "not found"⟩

/-!  ## Claim C3 -/

/-- C3 counterexample: a payload carrying both `status`+`description`
and a `message` field does not decode as an `Exit` — it decodes as a
`Message`, because the untagged variant order is Room, Message, Exit. -/
theorem c3_counterexample :
    decodeApiMessage c3Payload = .ok (.Message { message := "m" }) ∧
    decodeApiMessage c3Payload
      ≠ .ok (.Exit { status := .Finished, description := "d" }) := by
  constructor
  · rfl
  · intro h
    rw [show decodeApiMessage c3Payload
          = .ok (.Message { message := "m" }) from rfl] at h
    simp at h

/-- C3 amended: the untagged decoder attempts the shapes in declaration
order Room, then Message, then Exit; consequently every payload with
`status`, `description` and `message` fields (and no `exits`) decodes as
a `Message`, whatever the field contents. -/
theorem c3_amended (st desc msg : String) :
    decodeApiMessage (.obj [("status", .str st), ("description", .str desc),
                            ("message", .str msg)])
      = .ok (.Message { message := msg }) := by
  rcases h : decodeRoomStatusStr st with e | v <;>
    simp [decodeApiMessage, decodeRoomJ, decodeMessageJ, reqField, getField,
      decodeStringJ, decodeRoomStatusJ, h, Bind.bind, Except.bind]

/-!  ## Claim C4 -/

/-- C4 failing run: `restart` clears `rooms` but not `coord_to_id`, so
after exploring to `/B`, restarting, and re-exploring from `/C`, a move
East hits the stale cache entry for `/B` and the state machine ends
with `status = InRoom "/B"` while `/B` is not a key of `rooms` — the
claimed invariant is violated in a state reachable by init, move,
restart and response-dispatch events. -/
theorem c4_invariant_violation :
    ∃ m trace reqs, runEvents Model.initial c4Events = .ok (m, trace, reqs) ∧
      m.state.status = Status.InRoom "/B" ∧
      lookupA m.state.rooms "/B" = none ∧
      ¬ statusRoomInvariant m.state := by
  refine ⟨_, _, _, rfl, rfl, rfl, fun hinv => ?_⟩
  exact absurd (hinv "/B" rfl) (by decide)

/-!  ## Claim C5 -/

/-- C5 counterexample: the claim that a start intent issued while a
request is in flight leaves the exploration state unchanged is false:
`Msg::Init` runs `State::restart` before the in-flight guard, clearing
the discovered rooms and resetting the status. -/
theorem c5_counterexample : ¬ c5ClaimStatement := by
  intro h
  have h2 := (h c5Model rfl).2
  rw [show c5Model.update .Init
        = .ok { model := { c5Model with state := c5Model.state.restart },
                sent := [], request := none } from rfl] at h2
  simp [c5Model, State.restart] at h2

/-- C5 amended: while a request is in flight, a move intent is dropped
silently — model unchanged, nothing sent, no request issued — and a
start intent issues no request and enqueues no notification, but does
reset the exploration state, because `restart` runs before the guard. -/
theorem c5_amended (m : Model) (h : m.fetching = true) :
    (∀ d, m.update (.FetchNextRoom d) =
       .ok { model := m, sent := [], request := none }) ∧
    m.update .Init =
      .ok { model := { m with state := m.state.restart },
            sent := [], request := none } ∧
    ({ m with state := m.state.restart } : Model).notifications = m.notifications := by
  refine ⟨fun d => ?_, ?_, rfl⟩
  · simp [Model.update, Model.loading, h]
  · simp [Model.update, Model.fetch, h]

/-- C5 amended, witness: the amended theorem instantiated at the
in-flight model in room `/A`. -/
theorem c5_amended_witness :
    c5Model.fetching = true ∧
    c5Model.update (.FetchNextRoom .N)
      = .ok { model := c5Model, sent := [], request := none } ∧
    c5Model.update .Init
      = .ok { model := { c5Model with state := c5Model.state.restart },
              sent := [], request := none } :=
  ⟨rfl, (c5_amended c5Model rfl).1 .N, (c5_amended c5Model rfl).2.1⟩

/-!  ## Claim C6 -/

/-- C6 counterexample: `insert_room` does not transition the status to
`InRoom` of the new room's id: inserting room `/B` from room `/A`
leaves the status at `InRoom "/A"`. -/
theorem c6_counterexample :
    (c6State.insert_room c6Room (some MoveDirection.E)).map State.status
      = .ok (Status.InRoom "/A") ∧
    c6Room.location_path = "/B" ∧
    Status.InRoom "/A" ≠ Status.InRoom "/B" :=
  ⟨rfl, rfl, by decide⟩

/-- C6 amended: `insert_room` computes the new coordinate as the current
coordinate plus the move's delta (origin when there is no last move),
fails fatally when a last move is present but the status is not
`InRoom`, inserts into `rooms` and the coordinate cache — but leaves
`status` unchanged; the transition to `InRoom` of the new id happens via
the `MoveToRoom` message the `ReceivedRoom` handler queues afterwards. -/
theorem c6_amended :
    (∀ (s : State) (room r : Room) (d : MoveDirection) (id : String) (c : Coordinate),
       s.status = Status.InRoom id →
       lookupA s.rooms id = some (r, c) →
       ∃ s1, s.insert_room room (some d) = .ok s1 ∧
         lookupA s1.rooms room.location_path = some (room, c + d.delta) ∧
         lookupA s1.coord_to_id (c + d.delta) = some room.location_path ∧
         s1.status = s.status) ∧
    (∀ (s : State) (room : Room),
       ∃ s1, s.insert_room room none = .ok s1 ∧
         lookupA s1.rooms room.location_path = some (room, { x := 0, y := 0 }) ∧
         lookupA s1.coord_to_id { x := 0, y := 0 } = some room.location_path ∧
         s1.status = s.status) ∧
    (∀ (s : State) (room : Room) (d : MoveDirection),
       (∀ id, s.status ≠ Status.InRoom id) →
       ∃ msg, s.insert_room room (some d) = .error msg) ∧
    (∀ (m : Model) (room : Room) (lm : Option MoveDirection) m1 trace reqs,
       stepEvent m (.ReceivedRoom room lm) = .ok (m1, trace, reqs) →
       m1.state.status = Status.InRoom room.location_path) := by
  refine ⟨fun s room r d id c hst hroom => ?_, fun s room => ?_,
    fun s room d hnot => ?_, fun m room lm m1 trace reqs h => ?_⟩
  · simp only [State.insert_room, hst, hroom]
    exact ⟨_, rfl, lookupA_upsertA_self _ _ _, lookupA_upsertA_self _ _ _, rfl⟩
  · simp only [State.insert_room]
    exact ⟨_, rfl, lookupA_upsertA_self _ _ _, lookupA_upsertA_self _ _ _, rfl⟩
  · rcases hs : s.status with _ | id | e
    · simp only [State.insert_room, hs]
      exact ⟨_, rfl⟩
    · exact absurd hs (hnot id)
    · simp only [State.insert_room, hs]
      exact ⟨_, rfl⟩
  · rcases hi : ({ m with fetching := false, fetching_move := none } : Model).state.insert_room room lm
      with e | st
    · simp [stepEvent, runQueue, Model.update, hi] at h
    · simp only [stepEvent, runQueue, Model.update, hi] at h
      simp at h
      obtain ⟨h1, -, -⟩ := h
      rw [← h1]

/-- C6 amended, witness: the amended theorem instantiated at the state
in room `/A`, inserting room `/B` after a move East. -/
theorem c6_amended_witness :
    c6State.status = Status.InRoom "/A" ∧
    lookupA c6State.rooms "/A" = some (sampleRoom "/A" [.E], { x := 0, y := 0 }) ∧
    ∃ s1, c6State.insert_room c6Room (some .E) = .ok s1 ∧
      lookupA s1.rooms c6Room.location_path
        = some (c6Room, { x := 0, y := 0 } + MoveDirection.E.delta) ∧
      lookupA s1.coord_to_id ({ x := 0, y := 0 } + MoveDirection.E.delta)
        = some c6Room.location_path ∧
      s1.status = c6State.status :=
  ⟨rfl, rfl, c6_amended.1 c6State c6Room (sampleRoom "/A" [.E]) .E "/A"
      { x := 0, y := 0 } rfl rfl⟩

/-!  ## Claim C7 -/

/-- C7 confirmed: a move intent whose destination coordinate is already
in the coordinate cache issues no network request and transitions the
status directly to `InRoom` of the cached location path, leaving the
room map and the notifications untouched. -/
theorem c7_cache_short_circuit (m : Model) (id rid : String) (d : MoveDirection)
    (room : Room) (c : Coordinate)
    (hf : m.fetching = false)
    (hst : m.state.status = Status.InRoom id)
    (hroom : lookupA m.state.rooms id = some (room, c))
    (hexit : room.exits.contains d = true)
    (hcache : lookupA m.state.coord_to_id (c + d.delta) = some rid) :
    ∃ m1 trace,
      stepEvent m (.FetchNextRoom d) = .ok (m1, trace, []) ∧
      m1.state.status = Status.InRoom rid ∧
      m1.state.rooms = m.state.rooms ∧
      m1.notifications = m.notifications := by
  have hd : d ∈ room.exits := by simpa using hexit
  simp [stepEvent, runQueue, Model.update, Model.loading, Model.fetch,
    State.can_move_direction, State.current_exits, State.current_coordinates,
    hf, hst, hroom, hcache, hexit, hd]

/-- C7 witness: the theorem instantiated at the model in room `/C` whose
cache maps the cell to the East to room `/B`. -/
theorem c7_witness :
    c7Model.fetching = false ∧
    lookupA c7Model.state.coord_to_id
      ({ x := 0, y := 0 } + MoveDirection.E.delta) = some "/B" ∧
    ∃ m1 trace,
      stepEvent c7Model (.FetchNextRoom .E) = .ok (m1, trace, []) ∧
      m1.state.status = Status.InRoom "/B" ∧
      m1.state.rooms = c7Model.state.rooms ∧
      m1.notifications = c7Model.notifications :=
  ⟨rfl, rfl, c7_cache_short_circuit c7Model "/C" "/B" .E (sampleRoom "/C" [.E])
      { x := 0, y := 0 } rfl rfl rfl (by decide) rfl⟩

/-!  ## Claim C8 -/

/-- C8 confirmed: decoding the encoding of any `Room` whose hint
distance fits in a `u32` yields the same `Room`, and the encoding
carries the flattened top-level `mazeExitDirection` and
`mazeExitDistance` fields. -/
theorem c8_roundtrip (room : Room) (h : room.maze_exit_hint.distance < 4294967296) :
    decodeRoomJ (encodeRoomJ room) = .ok room ∧
    topField (encodeRoomJ room) "mazeExitDirection"
      = some (.str room.maze_exit_hint.direction.short_name) ∧
    topField (encodeRoomJ room) "mazeExitDistance"
      = some (.num room.maze_exit_hint.distance) := by
  refine ⟨?_, rfl, rfl⟩
  simp [decodeRoomJ, encodeRoomJ, reqField, getField, decodeStringJ, decodeU32,
    decodeRoomStatusJ, decodeCompassDirectionJ, decodeMoveDirectionList,
    mapM_loop_decode, h,
    show decodeRoomStatusStr (encodeRoomStatus room.status) = .ok room.status from
      by cases room.status <;> rfl,
    show decodeCompassDirectionStr room.maze_exit_hint.direction.short_name
        = .ok room.maze_exit_hint.direction from
      by cases room.maze_exit_hint.direction <;> rfl,
    Bind.bind, Except.bind]

/-- C8 witness: the round-trip theorem instantiated at a concrete room. -/
theorem c8_witness :
    (sampleRoom "/R" [.N, .E]).maze_exit_hint.distance < 4294967296 ∧
    decodeRoomJ (encodeRoomJ (sampleRoom "/R" [.N, .E]))
      = .ok (sampleRoom "/R" [.N, .E]) :=
  ⟨by decide, (c8_roundtrip (sampleRoom "/R" [.N, .E]) (by decide)).1⟩

/-!  ## Claim C9 -/

/-- C9 confirmed: the enumerated-string codecs produce the exact
specified literals (`InProgress` encodes to `"in-progress"`), round-trip
every value, and decoding any string outside the enumerated set fails
with an error naming the offending value, never defaulting. -/
theorem c9_enum_codecs :
    encodeRoomStatus .InProgress = "in-progress" ∧
    encodeRoomStatus .Finished = "finished" ∧
    (∀ st : RoomStatus, decodeRoomStatusStr (encodeRoomStatus st) = .ok st) ∧
    (∀ d : MoveDirection, decodeMoveDirectionStr d.short_name = .ok d) ∧
    (∀ d : CompassDirection, decodeCompassDirectionStr d.short_name = .ok d) ∧
    (∀ s : String, s ∉ (["in-progress", "finished"] : List String) →
       decodeRoomStatusStr s = .error ("Unknown status: " ++ s)) ∧
    (∀ s : String, s ∉ (["N", "S", "E", "W"] : List String) →
       decodeMoveDirectionStr s = .error ("Unknown move direction: " ++ s)) ∧
    (∀ s : String, s ∉ (["N", "S", "E", "W", "NW", "NE", "SW", "SE"] : List String) →
       decodeCompassDirectionStr s = .error ("Unknown compass direction: " ++ s)) := by
  refine ⟨rfl, rfl, fun st => by cases st <;> rfl, decodeMoveDirectionStr_short,
    fun d => by cases d <;> rfl, fun s hs => ?_, fun s hs => ?_, fun s hs => ?_⟩
  · simp at hs
    simp [decodeRoomStatusStr, hs.1, hs.2]
  · simp at hs
    simp [decodeMoveDirectionStr, hs.1, hs.2.1, hs.2.2.1, hs.2.2.2]
  · simp at hs
    obtain ⟨h1, h2, h3, h4, h5, h6, h7, h8⟩ := hs
    simp [decodeCompassDirectionStr, h1, h2, h3, h4, h5, h6, h7, h8]

/-- C9 witness: the codec theorem instantiated at concrete unknown
strings. -/
theorem c9_witness :
    ("bogus" ∉ (["in-progress", "finished"] : List String)) ∧
    decodeRoomStatusStr "bogus" = .error ("Unknown status: " ++ "bogus") ∧
    decodeMoveDirectionStr "Q" = .error ("Unknown move direction: " ++ "Q") ∧
    decodeCompassDirectionStr "NNW"
      = .error ("Unknown compass direction: " ++ "NNW") :=
  ⟨by decide, c9_enum_codecs.2.2.2.2.2.1 "bogus" (by decide),
   c9_enum_codecs.2.2.2.2.2.2.1 "Q" (by decide),
   c9_enum_codecs.2.2.2.2.2.2.2 "NNW" (by decide)⟩

/-!  ## Claim C10 -/

/-- C10 confirmed: `reached_exit` with no last move fails with the panic
message instead of transitioning to `Finished`; every successful call
has a present last move, ends in `Finished` of the received exit, and
returns the synthetic room id. -/
theorem c10_reached_exit_requires_move :
    (∀ (s : State) (e : Exit),
       s.reached_exit e none = .error "Logic error: we must have moved here.") ∧
    (∀ (s : State) (e : Exit) (lm : Option MoveDirection) (st : State) (rid : String),
       s.reached_exit e lm = .ok (st, rid) →
       lm.isSome = true ∧ st.status = Status.Finished e ∧ rid = "exit_room_yay") := by
  refine ⟨fun s e => rfl, fun s e lm st rid h => ?_⟩
  match lm with
  | none => exact absurd h (by simp [State.reached_exit])
  | some mv =>
    simp only [State.reached_exit] at h
    split at h
    · simp at h
    · simp at h
      obtain ⟨h1, h2⟩ := h
      subst h2
      simp [← h1]

/-- C10 witness: the theorem's success case instantiated at the state in
room `/A` receiving the exit payload after a move East. -/
theorem c10_witness :
    (some MoveDirection.E).isSome = true ∧
    (c6State.reached_exit sampleExit (some MoveDirection.E)).map
        (fun p => p.1.status) = .ok (Status.Finished sampleExit) :=
  ⟨(c10_reached_exit_requires_move.2 c6State sampleExit (some .E) _ _ rfl).1, rfl⟩

end Pathbot
